import Mathlib

/-!
Verification development for the runcore node core (Go).

The Go sources are shallowly embedded: pure functions become Lean
functions, byte strings become `List Nat` (each element a byte value),
Go `string` values are Lean `String`s (their runes as `Char`s),
durations and unix times are `Int` milliseconds / seconds, the
filesystem is an association list from path to content, and external
collaborators (the Reticulum transport, the LXMF router, the vendored
umsgpack decoder) are parameters of the model.  `crypto/sha256` is
modelled by a concrete executable SHA-256 over byte lists.
-/

set_option maxRecDepth 4096

namespace Runcore

/-! ## Hex encoding and decoding (encoding/hex) -/

/-- Value of one hex digit character, `none` for a non-digit
(mirrors `encoding/hex` digit decoding). -/
def hexDigitVal (c : Char) : Option Nat :=
  if '0' ≤ c ∧ c ≤ '9' then some (c.toNat - 48)
  else if 'a' ≤ c ∧ c ≤ 'f' then some (c.toNat - 87)
  else if 'A' ≤ c ∧ c ≤ 'F' then some (c.toNat - 55)
  else none

/-- Decode a list of hex characters into bytes; fails on an odd length or a
non-digit, as `hex.DecodeString` does. -/
def hexDecodeChars : List Char → Option (List Nat)
  | [] => some []
  | [_] => none
  | hi :: lo :: rest => do
    let h ← hexDigitVal hi
    let l ← hexDigitVal lo
    let tail ← hexDecodeChars rest
    pure ((16 * h + l) :: tail)

/-- Model of `hex.DecodeString`. -/
def hexDecode (s : String) : Option (List Nat) :=
  hexDecodeChars s.data

/-- Lower-case hex digit character for `n < 16` (as `hex.EncodeToString` emits). -/
def hexDigitChar (n : Nat) : Char :=
  if n < 10 then Char.ofNat (48 + n) else Char.ofNat (87 + n)

/-- Model of `hex.EncodeToString`: two lower-case digits per byte. -/
def hexEncode (bs : List Nat) : String :=
  String.mk (bs.flatMap fun b => [hexDigitChar (b / 16 % 16), hexDigitChar (b % 16)])

/-! ## SHA-256 (model of the `crypto/sha256` collaborator)

32-bit words are `Nat`s kept below `2 ^ 32` by explicit `% 4294967296`. -/

/-- Addition of two 32-bit words. -/
def add32 (a b : Nat) : Nat := (a + b) % 4294967296

/-- Right rotation of a 32-bit word by `k` bits. -/
def rotr32 (k n : Nat) : Nat :=
  ((n >>> k) ||| (n <<< (32 - k))) % 4294967296

/-- SHA-256 Ch function. -/
def sha256Ch (x y z : Nat) : Nat := (x &&& y) ^^^ ((x ^^^ 4294967295) &&& z)

/-- SHA-256 Maj function. -/
def sha256Maj (x y z : Nat) : Nat := (x &&& y) ^^^ (x &&& z) ^^^ (y &&& z)

/-- SHA-256 big sigma 0. -/
def bigSigma0 (x : Nat) : Nat := rotr32 2 x ^^^ rotr32 13 x ^^^ rotr32 22 x

/-- SHA-256 big sigma 1. -/
def bigSigma1 (x : Nat) : Nat := rotr32 6 x ^^^ rotr32 11 x ^^^ rotr32 25 x

/-- SHA-256 small sigma 0. -/
def smallSigma0 (x : Nat) : Nat := rotr32 7 x ^^^ rotr32 18 x ^^^ (x >>> 3)

/-- SHA-256 small sigma 1. -/
def smallSigma1 (x : Nat) : Nat := rotr32 17 x ^^^ rotr32 19 x ^^^ (x >>> 10)

/-- The 64 SHA-256 round constants. -/
def sha256K : List Nat :=
  [1116352408, 1899447441, 3049323471, 3921009573,
   961987163, 1508970993, 2453635748, 2870763221,
   3624381080, 310598401, 607225278, 1426881987,
   1925078388, 2162078206, 2614888103, 3248222580,
   3835390401, 4022224774, 264347078, 604807628,
   770255983, 1249150122, 1555081692, 1996064986,
   2554220882, 2821834349, 2952996808, 3210313671,
   3336571891, 3584528711, 113926993, 338241895,
   666307205, 773529912, 1294757372, 1396182291,
   1695183700, 1986661051, 2177026350, 2456956037,
   2730485921, 2820302411, 3259730800, 3345764771,
   3516065817, 3600352804, 4094571909, 275423344,
   430227734, 506948616, 659060556, 883997877,
   958139571, 1322822218, 1537002063, 1747873779,
   1955562222, 2024104815, 2227730452, 2361852424,
   2428436474, 2756734187, 3204031479, 3329325298]

/-- Big-endian 4-byte split of a 32-bit word. -/
def be32Bytes (n : Nat) : List Nat :=
  [n >>> 24 % 256, n >>> 16 % 256, n >>> 8 % 256, n % 256]

/-- Big-endian 8-byte split of a 64-bit value. -/
def be64Bytes (n : Nat) : List Nat :=
  [n >>> 56 % 256, n >>> 48 % 256, n >>> 40 % 256, n >>> 32 % 256,
   n >>> 24 % 256, n >>> 16 % 256, n >>> 8 % 256, n % 256]

/-- SHA-256 padding: append `0x80`, zeros to 56 mod 64, then the bit length. -/
def sha256Pad (msg : List Nat) : List Nat :=
  let l := msg.length
  let zeros := (55 + 64 - l % 64) % 64
  msg ++ [0x80] ++ List.replicate zeros 0 ++ be64Bytes (8 * l)

/-- Big-endian 32-bit words of a byte list (groups of four). -/
def bytesToWords : List Nat → List Nat
  | a :: b :: c :: d :: rest =>
      (a * 16777216 + b * 65536 + c * 256 + d) :: bytesToWords rest
  | _ => []

/-- One step of the SHA-256 message-schedule extension. -/
def scheduleStep (w : Array Nat) : Array Nat :=
  let i := w.size
  w.push (add32
    (add32 (smallSigma1 (w.getD (i - 2) 0)) (w.getD (i - 7) 0))
    (add32 (smallSigma0 (w.getD (i - 15) 0)) (w.getD (i - 16) 0)))

/-- The 64-word SHA-256 message schedule of one block. -/
def sha256Schedule (block : List Nat) : Array Nat :=
  (List.range 48).foldl (fun w _ => scheduleStep w) (bytesToWords block).toArray

/-- The eight 32-bit working words of the SHA-256 state. -/
structure Sha256State where
  a : Nat
  b : Nat
  c : Nat
  d : Nat
  e : Nat
  f : Nat
  g : Nat
  h : Nat
  deriving Repr, DecidableEq

/-- Initial SHA-256 state. -/
def sha256Init : Sha256State :=
  ⟨1779033703, 3144134277, 1013904242, 2773480762,
   1359893119, 2600822924, 528734635, 1541459225⟩

/-- One SHA-256 compression round. -/
def sha256Round (st : Sha256State) (ki wi : Nat) : Sha256State :=
  let t1 := add32 (add32 (add32 st.h (bigSigma1 st.e)) (add32 (sha256Ch st.e st.f st.g) ki)) wi
  let t2 := add32 (bigSigma0 st.a) (sha256Maj st.a st.b st.c)
  ⟨add32 t1 t2, st.a, st.b, st.c, add32 st.d t1, st.e, st.f, st.g⟩

/-- Compress one 64-byte block into the running state. -/
def sha256Compress (hs : Sha256State) (block : List Nat) : Sha256State :=
  let w := sha256Schedule block
  let st := (List.range 64).foldl
    (fun st i => sha256Round st (sha256K.getD i 0) (w.getD i 0)) hs
  ⟨add32 st.a hs.a, add32 st.b hs.b, add32 st.c hs.c, add32 st.d hs.d,
   add32 st.e hs.e, add32 st.f hs.f, add32 st.g hs.g, add32 st.h hs.h⟩

/-- Split a byte list into 64-byte chunks; the first argument is fuel
(one unit per chunk, so the list's length always suffices). -/
def chunks64Go : Nat → List Nat → List (List Nat)
  | 0, _ => []
  | _, [] => []
  | fuel + 1, x :: xs => ((x :: xs).take 64) :: chunks64Go fuel ((x :: xs).drop 64)

/-- Split a byte list into 64-byte chunks. -/
def chunks64 (l : List Nat) : List (List Nat) :=
  chunks64Go l.length l

/-- SHA-256 digest (32 bytes) of a byte list; model of `crypto/sha256.Sum256`. -/
def sha256 (msg : List Nat) : List Nat :=
  let fin := (chunks64 (sha256Pad msg)).foldl sha256Compress sha256Init
  be32Bytes fin.a ++ be32Bytes fin.b ++ be32Bytes fin.c ++ be32Bytes fin.d ++
  be32Bytes fin.e ++ be32Bytes fin.f ++ be32Bytes fin.g ++ be32Bytes fin.h

/-! ## Go string helpers (strings.TrimSpace, strings.ToLower, []byte(s)) -/

/-- ASCII whitespace as `strings.TrimSpace` strips it (unicode spaces are not
modelled; none of the claims involve them). -/
def isSpaceGo (c : Char) : Bool :=
  c = ' ' ∨ c = '\t' ∨ c = '\n' ∨ c = '\r' ∨ c = Char.ofNat 11 ∨ c = Char.ofNat 12

/-- Drop leading and trailing whitespace from a character list. -/
def trimChars (l : List Char) : List Char :=
  ((l.dropWhile isSpaceGo).reverse.dropWhile isSpaceGo).reverse

/-- Model of `strings.TrimSpace`. -/
def trimGo (s : String) : String := String.mk (trimChars s.data)

/-- Model of `strings.ToLower` (ASCII case folding). -/
def toLowerGo (s : String) : String :=
  String.mk (s.data.map fun c =>
    if 'A' ≤ c ∧ c ≤ 'Z' then Char.ofNat (c.toNat + 32) else c)

/-- UTF-8 bytes of one character. -/
def utf8Bytes (c : Char) : List Nat :=
  let n := c.toNat
  if n < 128 then [n]
  else if n < 2048 then [192 ||| (n >>> 6), 128 ||| (n &&& 63)]
  else if n < 65536 then
    [224 ||| (n >>> 12), 128 ||| ((n >>> 6) &&& 63), 128 ||| (n &&& 63)]
  else
    [240 ||| (n >>> 18), 128 ||| ((n >>> 12) &&& 63),
     128 ||| ((n >>> 6) &&& 63), 128 ||| (n &&& 63)]

/-- Model of Go's `[]byte(s)` conversion: the string's UTF-8 bytes. -/
def strBytes (s : String) : List Nat := s.data.flatMap utf8Bytes

/-- Model of Go's `string(b)` conversion, faithful for ASCII content (the
only string content the claims touch). -/
def bytesToStringGo (b : List Nat) : String := String.mk (b.map Char.ofNat)

/-! ## Canonical msgpack values and packing

Models the vendored `umsgpack.Packb` used by `announceAppData`.  A Go
`map[any]any` literal is modelled with its keys in the literal's textual
order, which fixes the canonical encoding. -/

/-- Msgpack values as the Go `any` tree passed to `umsgpack.Packb`. -/
inductive MP where
  | nil : MP
  | bool (b : Bool) : MP
  | int (i : Int) : MP
  | str (s : String) : MP
  | bin (b : List Nat) : MP
  | arr (xs : List MP) : MP
  | map (kvs : List (MP × MP)) : MP

/-- Big-endian 2-byte split of a 16-bit value. -/
def be16Bytes (n : Nat) : List Nat := [n >>> 8 % 256, n % 256]

/-- Canonical msgpack encoding of an integer. -/
def packInt (i : Int) : List Nat :=
  if 0 ≤ i then
    let n := i.toNat
    if n < 128 then [n]
    else if n < 256 then [0xcc, n]
    else if n < 65536 then 0xcd :: be16Bytes n
    else if n < 4294967296 then 0xce :: be32Bytes n
    else 0xcf :: be64Bytes n
  else
    if -32 ≤ i then [(256 + i).toNat]
    else if -128 ≤ i then [0xd0, (256 + i).toNat]
    else if -32768 ≤ i then 0xd1 :: be16Bytes (65536 + i).toNat
    else if -2147483648 ≤ i then 0xd2 :: be32Bytes (4294967296 + i).toNat
    else 0xd3 :: be64Bytes (18446744073709551616 + i).toNat

/-- Msgpack bin header for a payload of `len` bytes. -/
def binHeader (len : Nat) : List Nat :=
  if len < 256 then [0xc4, len]
  else if len < 65536 then 0xc5 :: be16Bytes len
  else 0xc6 :: be32Bytes len

/-- Msgpack str header for a payload of `len` bytes. -/
def strHeader (len : Nat) : List Nat :=
  if len < 32 then [0xa0 + len]
  else if len < 256 then [0xd9, len]
  else if len < 65536 then 0xda :: be16Bytes len
  else 0xdb :: be32Bytes len

/-- Msgpack array header for `len` elements. -/
def arrHeader (len : Nat) : List Nat :=
  if len < 16 then [0x90 + len]
  else if len < 65536 then 0xdc :: be16Bytes len
  else 0xdd :: be32Bytes len

/-- Msgpack map header for `len` key-value pairs. -/
def mapHeader (len : Nat) : List Nat :=
  if len < 16 then [0x80 + len]
  else if len < 65536 then 0xde :: be16Bytes len
  else 0xdf :: be32Bytes len

mutual

/-- Canonical msgpack encoding of a value (model of `umsgpack.Packb`). -/
def packb : MP → List Nat
  | .nil => [0xc0]
  | .bool b => if b then [0xc3] else [0xc2]
  | .int i => packInt i
  | .str s => strHeader (strBytes s).length ++ strBytes s
  | .bin b => binHeader b.length ++ b
  | .arr xs => arrHeader xs.length ++ packbList xs
  | .map kvs => mapHeader kvs.length ++ packbPairs kvs

/-- Concatenated encodings of a list of values. -/
def packbList : List MP → List Nat
  | [] => []
  | x :: xs => packb x ++ packbList xs

/-- Concatenated encodings of a list of key-value pairs. -/
def packbPairs : List (MP × MP) → List Nat
  | [] => []
  | (k, v) :: xs => packb k ++ packb v ++ packbPairs xs

end

/-! ## C1 — announce app-data composition (node.go `announceAppData`) -/

/-- The node fields `announceAppData` reads (node.go). -/
structure AnnounceComposeState where
  displayName : String
  deliveryStampCost : Option Int
  avatarPNG : List Nat
  avatarHash : List Nat
  avatarMTime : Int
  avatarMime : String

/-- The display-name element: the name's bytes, or the empty byte string
when no display name is set (node.go:966-969). -/
def announceDisplayNameBytes (st : AnnounceComposeState) : List Nat :=
  if st.displayName = "" then [] else strBytes st.displayName

/-- The stamp-cost element (node.go:970-973): the configured cost when it is
strictly between 0 and 255, else msgpack nil. -/
def announceStampCostVal (st : AnnounceComposeState) : MP :=
  match st.deliveryStampCost with
  | some c => if 0 < c ∧ c < 255 then .int c else .nil
  | none => .nil

/-- The avatar element (node.go:975-987): a four-key map when an avatar
fingerprint is present, else msgpack nil. -/
def announceAvatarVal (st : AnnounceComposeState) : MP :=
  if st.avatarHash.length > 0 then
    let mime := if st.avatarMime = "" then "image/png" else st.avatarMime
    .map [(.str "h", .bin st.avatarHash), (.str "t", .str mime),
          (.str "s", .int st.avatarPNG.length), (.str "u", .int st.avatarMTime)]
  else .nil

/-- The three-element sequence handed to `umsgpack.Packb` (node.go:989). -/
def announceAppDataVal (st : AnnounceComposeState) : MP :=
  .arr [.bin (announceDisplayNameBytes st), announceStampCostVal st, announceAvatarVal st]

/-- Model of node.go `announceAppData`: the canonical packing of the
three-element sequence. -/
def announceAppData (st : AnnounceComposeState) : List Nat :=
  packb (announceAppDataVal st)

/-! ## C2 — announce single-flight and coalescing (node.go
`AnnounceDeliveryWithReason`)

The two atomic words `announceInFlight` and `announceQueued` and the three
ways an attempt ends: the emission path (node.go:620-631), the 20-second
readiness-deadline abort with the skipped log (node.go:587-601), and the
stop-channel abort (node.go:569-576).  The `Option String` result is the
reason of the follow-up announce the path fires, if any. -/

/-- The single-flight flag pair. -/
structure AnnFlags where
  inFlight : Bool
  queued : Bool
  deriving Repr, DecidableEq

/-- Entry gate of `AnnounceDeliveryWithReason` (node.go:545-548): the CAS on
`announceInFlight`; on failure set `announceQueued` and return immediately.
The `Bool` is true when the caller proceeds into the attempt. -/
def announceEnter (s : AnnFlags) : AnnFlags × Bool :=
  if s.inFlight then ({ s with queued := true }, false)
  else ({ inFlight := true, queued := s.queued }, true)

/-- Tail of the emission path (node.go:627-631): clear `announceInFlight`,
swap `announceQueued` to 0 and, when it was set, fire one follow-up announce
with reason "queued". -/
def announceFinishEmit (s : AnnFlags) : AnnFlags × Option String :=
  let cleared : AnnFlags := { s with inFlight := false }
  if cleared.queued then ({ cleared with queued := false }, some "queued")
  else (cleared, none)

/-- The 20-second readiness-deadline abort (node.go:587-601): after the
skipped log, clear `announceInFlight` and return; `announceQueued` is left
as it is and no follow-up fires. -/
def announceFinishDeadline (s : AnnFlags) : AnnFlags × Option String :=
  ({ s with inFlight := false }, none)

/-- The stop-channel abort (node.go:569-576): clear `announceInFlight` and
return without a follow-up. -/
def announceFinishStop (s : AnnFlags) : AnnFlags × Option String :=
  ({ s with inFlight := false }, none)

/-! ## C3 — interface watchdog (node.go `maybeResetInterfacesOnStall`) -/

/-- One configured interface section, as `enabledInterfaceConfigs` returns
it (node.go: `configuredInterfaceEntry` with `Enabled` always true). -/
structure IfaceCfg where
  name : String
  type : String
  deriving Repr, DecidableEq

/-- Go map write, modelled on an association list: one entry per key. -/
def assocSet {α : Type} (l : List (String × α)) (k : String) (v : α) :
    List (String × α) :=
  (k, v) :: l.filter (fun p => !(p.1 == k))

/-- Go map delete, modelled on an association list. -/
def assocErase {α : Type} (l : List (String × α)) (k : String) :
    List (String × α) :=
  l.filter (fun p => !(p.1 == k))

/-- Online lookup (node.go:487-492): the short-name map first; a present
entry — even a false one — shadows the by-name map. -/
def ifaceOnline (sbs sbn : List (String × Bool)) (name : String) : Bool :=
  match List.lookup name sbs with
  | some v => v
  | none => (List.lookup name sbn).getD false

/-- One iteration of the enabled-interface loop (node.go:482-507),
threading (anyOnline, ifaceOfflineAt, longestOffline).  Times are `Int`
milliseconds. -/
def watchdogStep (sbs sbn : List (String × Bool)) (now : Int)
    (acc : Bool × List (String × Int) × Int) (cfg : IfaceCfg) :
    Bool × List (String × Int) × Int :=
  let name := trimGo cfg.name
  if name = "" then acc
  else
    let anyOnline := acc.1
    let offl := acc.2.1
    let longest := acc.2.2
    if ifaceOnline sbs sbn name then (true, assocErase offl name, longest)
    else
      match List.lookup name offl with
      | some start => (anyOnline, offl, max longest (now - start))
      | none => (anyOnline, assocSet offl name now, max longest 0)

/-- The state `maybeResetInterfacesOnStall` reads at one watchdog tick. -/
structure WatchdogInput where
  enabledCfg : List IfaceCfg
  statusByShort : List (String × Bool)
  statusByName : List (String × Bool)
  ifaceOfflineAt : List (String × Int)
  lastIfaceReset : Option Int
  now : Int

/-- What one tick leaves behind: the updated offline timestamps, the updated
last-reset time, and whether `resetEnabledInterfaces` was invoked. -/
structure WatchdogDecision where
  ifaceOfflineAt : List (String × Int)
  lastIfaceReset : Option Int
  didReset : Bool
  deriving Repr, DecidableEq

/-- Model of node.go `maybeResetInterfacesOnStall`: scan the enabled
interfaces, then reset only when nothing enabled is online, the longest
offline duration reached 6 s and the previous reset (if any) is at least
12 s old. -/
def maybeResetInterfacesOnStall (inp : WatchdogInput) : WatchdogDecision :=
  if inp.enabledCfg.isEmpty then ⟨inp.ifaceOfflineAt, inp.lastIfaceReset, false⟩
  else
    let scan := inp.enabledCfg.foldl
      (watchdogStep inp.statusByShort inp.statusByName inp.now)
      (false, inp.ifaceOfflineAt, 0)
    if scan.1 then ⟨scan.2.1, inp.lastIfaceReset, false⟩
    else if scan.2.2 < 6000 then ⟨scan.2.1, inp.lastIfaceReset, false⟩
    else if inp.lastIfaceReset.elim false (fun t => decide (inp.now - t < 12000))
    then ⟨scan.2.1, inp.lastIfaceReset, false⟩
    else ⟨scan.2.1, some inp.now, true⟩

/-- The interface names the watchdog actually tracks: the enabled sections
whose trimmed name is non-empty, in order. -/
def cfgNames (cfgs : List IfaceCfg) : List String :=
  cfgs.filterMap fun c =>
    let nm := trimGo c.name
    if nm = "" then none else some nm

/-- Claim-side reading: is some enabled interface online at this tick. -/
def specAnyEnabledOnline (inp : WatchdogInput) : Bool :=
  (cfgNames inp.enabledCfg).any (ifaceOnline inp.statusByShort inp.statusByName)

/-- Claim-side reading: offline duration of one interface at this tick,
measured from its recorded offline timestamp; an interface first observed
offline at this tick counts zero. -/
def specOfflineDur (inp : WatchdogInput) (nm : String) : Int :=
  inp.now - ((List.lookup nm inp.ifaceOfflineAt).getD inp.now)

/-- Claim-side reading: the longest per-interface offline duration over the
enabled interfaces that are offline at this tick. -/
def specLongestOffline (inp : WatchdogInput) : Int :=
  ((cfgNames inp.enabledCfg).filter
    (fun nm => !(ifaceOnline inp.statusByShort inp.statusByName nm))).foldl
    (fun m nm => max m (specOfflineDur inp nm)) 0

/-! ## C4 — outbound send path (node.go `SendHex`) -/

/-- The collaborators `SendHex` consults and the outcomes of its fallible
steps: the transport's identity recall, and whether destination creation,
message construction, packing and the router's local delivery succeed. -/
structure SendEnv where
  selfHash : List Nat
  recallKnown : List Nat → Bool
  createDestOk : Bool
  newLXMOk : Bool
  packOk : Bool
  lxmDeliveryOk : Bool

/-- What one `SendHex` run returned and which router entry points it hit;
`.ok ()` stands for returning the built LXMessage. -/
structure SendResult where
  outcome : Except String Unit
  handleOutbound : Bool
  lxmDelivery : Bool

/-- Model of node.go `SendHex` (node.go:392-441).  Error strings are the
leading tag of the Go error; "local loopback delivery failed" and
"unknown destination identity" match `errors.New` verbatim. -/
def sendHex (env : SendEnv) (destHex : String) : SendResult :=
  match hexDecode destHex with
  | none => ⟨.error "decode destination hash", false, false⟩
  | some destHash =>
    if destHash.length ≠ 16 then
      ⟨.error "invalid destination hash length", false, false⟩
    else
      let isSelf := decide (destHash = env.selfHash)
      let identityKnown := if isSelf then true else env.recallKnown destHash
      if identityKnown = false then
        ⟨.error "unknown destination identity", false, false⟩
      else if env.createDestOk = false then
        ⟨.error "create outbound destination", false, false⟩
      else if env.newLXMOk = false then
        ⟨.error "new lxmessage", false, false⟩
      else if isSelf then
        if env.packOk = false then ⟨.error "pack", false, false⟩
        else if env.lxmDeliveryOk then ⟨.ok (), false, true⟩
        else ⟨.error "local loopback delivery failed", false, true⟩
      else ⟨.ok (), true, false⟩

/-! ## C5, C6 — contact recall (part_004 `ContactInfoHex`) and the
fetch-operation timeout rewrites (part_000, part_001) -/

/-- Avatar metadata extracted from a peer's announce app-data. -/
structure PeerAvatarInfo where
  hashHex : String
  mime : String
  size : Int
  updated : Int
  deriving Repr, DecidableEq

/-- The result record of `ContactInfoHex`; the display name is kept as its
bytes (Go builds the string straight from them). -/
structure PeerContactInfo where
  displayName : List Nat
  avatar : Option PeerAvatarInfo
  deriving Repr, DecidableEq

/-- Lookup of a string key in an unpacked msgpack map (Go `m["h"]`). -/
def mpLookup (kvs : List (MP × MP)) (k : String) : Option MP :=
  (kvs.find? fun kv =>
    match kv.1 with
    | .str s => s == k
    | _ => false).map (·.2)

/-- Field extraction from the unpacked announce app-data
(part_004:66-116): element 0 is the display name, element 2 the optional
avatar map with keys h, t, s, u. -/
def decodeContactInfo (unpacked : List MP) : PeerContactInfo :=
  let dn : List Nat :=
    match unpacked.head? with
    | some (.bin b) => if b ≠ [] then b else []
    | some (.str s) => strBytes s
    | _ => []
  let av : Option PeerAvatarInfo :=
    match unpacked.drop 2 with
    | MP.map kvs :: _ =>
      let hashHex :=
        match mpLookup kvs "h" with
        | some (.bin b) => if b ≠ [] then hexEncode b else ""
        | _ => ""
      let mime :=
        match mpLookup kvs "t" with
        | some (.str s) => s
        | _ => ""
      let size : Int :=
        match mpLookup kvs "s" with
        | some (.int n) => n
        | _ => 0
      let updated : Int :=
        match mpLookup kvs "u" with
        | some (.int n) => n
        | _ => 0
      if hashHex ≠ "" ∨ mime ≠ "" ∨ size ≠ 0 ∨ updated ≠ 0 then
        some ⟨hashHex, mime, size, updated⟩
      else none
    | _ => none
  ⟨dn, av⟩

/-- The transport-facing effects of one `ContactInfoHex` run. -/
structure ContactEffects where
  pathRequested : Bool
  polled : Bool
  deriving Repr, DecidableEq

/-- The collaborators `ContactInfoHex` consults: the transport's local
identity recall (a cached identity's app-data, `none` when no identity is
cached), the recall observation the 120 ms poll loop ends on after a path
request (`none` when the deadline fires first; a `some` is non-empty by
the loop's exit condition), and the vendored `umsgpack.Unpackb`. -/
structure ContactEnv where
  identityRecall : List Nat → Option (List Nat)
  recallAfterPath : List Nat → Option (List Nat)
  unpackb : List Nat → Option (List MP)

/-- App-data decoding step of `ContactInfoHex` (part_004:61-64): a decode
error yields the empty result. -/
def contactInfoParse (env : ContactEnv) (appData : List Nat) : PeerContactInfo :=
  match env.unpackb appData with
  | none => ⟨[], none⟩
  | some unpacked => decodeContactInfo unpacked

/-- Model of part_004 `ContactInfoHex`: with a non-positive timeout only the
local recall is consulted; otherwise a path request is issued and the
recall is polled until non-empty app-data or the deadline.  Durations are
`Int` milliseconds. -/
def contactInfoHex (env : ContactEnv) (destHex : String) (timeout : Int) :
    Except String PeerContactInfo × ContactEffects :=
  match hexDecode destHex with
  | none => (.error "decode destination hash", ⟨false, false⟩)
  | some destHash =>
    if destHash.length ≠ 16 then
      (.error "invalid destination hash length", ⟨false, false⟩)
    else if timeout ≤ 0 then
      match env.identityRecall destHash with
      | none => (.ok ⟨[], none⟩, ⟨false, false⟩)
      | some appData =>
        if appData = [] then (.ok ⟨[], none⟩, ⟨false, false⟩)
        else (.ok (contactInfoParse env appData), ⟨false, false⟩)
    else
      match env.recallAfterPath destHash with
      | some appData => (.ok (contactInfoParse env appData), ⟨true, true⟩)
      | none => (.ok ⟨[], none⟩, ⟨true, true⟩)

/-- The timeout rewrite at the head of `ContactAvatarDataBase64Hex`
(part_000:128-130), in milliseconds. -/
def contactAvatarEffectiveTimeout (t : Int) : Int :=
  if t ≤ 0 then 5000 else t

/-- The timeout rewrite at the head of `ContactAttachmentPathHex`
(part_001:219-221), in milliseconds. -/
def contactAttachmentEffectiveTimeout (t : Int) : Int :=
  if t ≤ 0 then 10000 else t

/-- Concrete environment used to exhibit `ContactInfoHex` behaviour at a
cold cache: nothing recalled, nothing unpacked. -/
def coldContactEnv : ContactEnv :=
  ⟨fun _ => none, fun _ => none, fun _ => none⟩

/-- Concrete environment for the zero-timeout witness: a cached identity
whose app-data is a single byte the unpacker rejects. -/
def cachedContactEnv : ContactEnv :=
  ⟨fun _ => some [1], fun _ => none, fun _ => none⟩

/-- Concrete send environment for the loopback witness: the destination is
the all-zero self hash and the router rejects the local delivery. -/
def loopbackSendEnv : SendEnv :=
  ⟨List.replicate 16 0, fun _ => false, true, true, true, false⟩

/-! ## C7 — outgoing attachment store (part_001 `StoreOutgoingAttachment`,
`loadOutgoingAttachmentByHashHex`)

The filesystem is an association list from path to content bytes (one
entry per path, maintained by `assocSet`).  File mtimes are not part of
the model; the `updated` field is fixed at 0. -/

/-- The filesystem model. -/
abbrev FS := List (String × List Nat)

/-- Model of reading a file (`os.ReadFile`): `none` is a read error. -/
def fsRead (fs : FS) (p : String) : Option (List Nat) := List.lookup p fs

/-- Model of writing a file (`os.WriteFile`, always succeeding). -/
def fsWrite (fs : FS) (p : String) (b : List Nat) : FS := assocSet fs p b

/-- Well-formed filesystem: one entry per path. -/
def fsWF (fs : FS) : Prop := (fs.map Prod.fst).Nodup

/-- Model of `filepath.Base` (unix separators). -/
def baseName (s : String) : String :=
  if s = "" then "."
  else
    let cs := (s.data.reverse.dropWhile (fun c => c == '/')).reverse
    if cs = [] then "/"
    else String.mk ((cs.reverse.takeWhile (fun c => !(c == '/'))).reverse)

/-- Model of part_001 `sanitizeAttachmentName`: trim, basename, rewrite
NUL, '/', '\\', ':' to '-', drop other control characters, trim again and
cap at 180 (Go truncates bytes; runes here — the claims do not reach the
difference). -/
def sanitizeAttachmentName (name : String) : String :=
  let n1 := trimGo name
  if n1 = "" then ""
  else
    let n2 := baseName n1
    let n3 := String.mk (n2.data.filterMap fun r =>
      if r = Char.ofNat 0 ∨ r = '/' ∨ r = '\\' ∨ r = ':' then some '-'
      else if r.toNat < 32 then none
      else some r)
    let n4 := trimGo n3
    if n4 = "" then ""
    else if n4.length > 180 then String.mk (n4.data.take 180) else n4

/-- The descriptor `StoreOutgoingAttachment` and the loader return. -/
structure AttachmentInfo where
  hashHex : String
  mime : String
  name : String
  size : Nat
  updated : Int
  outgoing : Bool
  deriving Repr, DecidableEq

/-- One store run: the filesystem afterwards, the paths written by this
call in order, and the returned descriptor or error. -/
structure StoreResult where
  fs : FS
  writes : List String
  result : Except String AttachmentInfo

/-- Model of part_001 `StoreOutgoingAttachment` (lines 83-133): hash the
bytes, write `<hash>.bin` only when absent, write non-empty sidecars. -/
def storeOutgoingAttachment (fs : FS) (data : List Nat) (mime name : String) :
    StoreResult :=
  if data = [] then ⟨fs, [], .error "empty attachment"⟩
  else
    let hashHex := hexEncode (sha256 data)
    let binPath := "attachments/out/" ++ hashHex ++ ".bin"
    let mimePath := "attachments/out/" ++ hashHex ++ ".mime"
    let namePath := "attachments/out/" ++ hashHex ++ ".name"
    let fs1 := if (fsRead fs binPath).isSome then fs else fsWrite fs binPath data
    let w1 : List String := if (fsRead fs binPath).isSome then [] else [binPath]
    let mime1 := trimGo mime
    let fs2 := if mime1 = "" then fs1 else fsWrite fs1 mimePath (strBytes mime1)
    let w2 : List String := if mime1 = "" then [] else [mimePath]
    let name1 := sanitizeAttachmentName name
    let fs3 := if name1 = "" then fs2 else fsWrite fs2 namePath (strBytes name1)
    let w3 : List String := if name1 = "" then [] else [namePath]
    ⟨fs3, w1 ++ w2 ++ w3, .ok ⟨hashHex, mime1, name1, data.length, 0, true⟩⟩

/-- The on-disk path of an outgoing attachment's content, named by the hex
of its SHA-256 (part_001:100). -/
def outBinPath (data : List Nat) : String :=
  "attachments/out/" ++ hexEncode (sha256 data) ++ ".bin"

/-- Model of part_001 `loadOutgoingAttachmentByHashHex` (lines 135-156). -/
def loadOutgoingAttachmentByHashHex (fs : FS) (hashHex : String) :
    Except String (AttachmentInfo × List Nat) :=
  let h := toLowerGo (trimGo hashHex)
  if h = "" then .error "empty hash"
  else
    match fsRead fs ("attachments/out/" ++ h ++ ".bin") with
    | none => .error "read attachment"
    | some b =>
      let mime := trimGo (bytesToStringGo
        ((fsRead fs ("attachments/out/" ++ h ++ ".mime")).getD []))
      let name := trimGo (bytesToStringGo
        ((fsRead fs ("attachments/out/" ++ h ++ ".name")).getD []))
      .ok (⟨h, mime, name, b.length, 0, true⟩, b)

/-! ## C8, C9 — avatar state and store (node.go `SetAvatarImage`,
`ClearAvatar`, `loadAvatarFromDisk`, `detectAvatarMime`)

The avatar file paths are relative to the node directory ("avatar.bin",
"avatar.mime", legacy "avatar.png").  `os.Stat` mtimes come from a
caller-supplied function; `os.WriteFile` always succeeds in the model. -/

/-- The node's avatar fields. -/
structure AvatarState where
  avatarPNG : List Nat
  avatarHash : List Nat
  avatarMTime : Int
  avatarMime : String
  deriving Repr, DecidableEq

/-- Model of node.go `detectAvatarMime` (lines 1042-1057): PNG and JPEG
magic bytes and the HEIC/HEIF ftyp brands. -/
def detectAvatarMime (data : List Nat) : String :=
  if data.length ≥ 8 ∧
      data.take 8 = [0x89, 0x50, 0x4e, 0x47, 0x0d, 0x0a, 0x1a, 0x0a] then
    "image/png"
  else if data.length ≥ 3 ∧ data.take 3 = [0xff, 0xd8, 0xff] then
    "image/jpeg"
  else if data.length ≥ 12 ∧ (data.drop 4).take 4 = [0x66, 0x74, 0x79, 0x70] ∧
      ((data.drop 8).take 4 = strBytes "heic" ∨
       (data.drop 8).take 4 = strBytes "heix" ∨
       (data.drop 8).take 4 = strBytes "hevc" ∨
       (data.drop 8).take 4 = strBytes "hevx" ∨
       (data.drop 8).take 4 = strBytes "mif1" ∨
       (data.drop 8).take 4 = strBytes "msf1") then
    "image/heic"
  else ""

/-- Model of node.go `saveAvatarToDisk` (lines 1029-1040): write the bytes,
and the mime sidecar when non-empty. -/
def saveAvatarToDisk (st : AvatarState) (fs : FS) : FS :=
  if st.avatarPNG = [] then fs
  else
    let fs1 := fsWrite fs "avatar.bin" st.avatarPNG
    if st.avatarMime = "" then fs1
    else fsWrite fs1 "avatar.mime" (strBytes st.avatarMime)

/-- Model of node.go `SetAvatarImage` (lines 928-948): reject empty data
and an undetectable mime before touching any state, else install the
bytes, the leading 16 bytes of their SHA-256, the time and the mime, and
save to disk. -/
def setAvatarImage (st : AvatarState) (fs : FS) (now : Int) (mime : String)
    (data : List Nat) : AvatarState × FS × Option String :=
  if data = [] then (st, fs, some "empty avatar")
  else
    let m0 := trimGo mime
    let m := if m0 = "" then detectAvatarMime data else m0
    if m = "" then (st, fs, some "unknown avatar mime")
    else
      let st' : AvatarState := ⟨data, (sha256 data).take 16, now, m⟩
      (st', saveAvatarToDisk st' fs, none)

/-- Model of node.go `ClearAvatar` (lines 951-962): zero all fields and
remove both files. -/
def clearAvatar (_st : AvatarState) (fs : FS) : AvatarState × FS :=
  (⟨[], [], 0, ""⟩, assocErase (assocErase fs "avatar.bin") "avatar.mime")

/-- The state `loadAvatarFromDisk` builds from loaded bytes
(node.go:1016-1025): hash is the leading 16 bytes of the SHA-256, mtime
from stat, mime from the sidecar or magic-byte detection. -/
def loadAvatarCommon (fs : FS) (statMTime : String → Int) (b : List Nat)
    (path : String) : AvatarState :=
  let mimeRaw := trimGo (bytesToStringGo ((fsRead fs "avatar.mime").getD []))
  let mime := if mimeRaw = "" then detectAvatarMime b else mimeRaw
  ⟨b, (sha256 b).take 16, statMTime path, mime⟩

/-- Model of node.go `loadAvatarFromDisk` (lines 1004-1027): read
avatar.bin, fall back to the legacy avatar.png, and propagate the read
error (state untouched) when both are missing. -/
def loadAvatarFromDisk (st : AvatarState) (fs : FS)
    (statMTime : String → Int) : AvatarState × Option String :=
  match fsRead fs "avatar.bin" with
  | some b => (loadAvatarCommon fs statMTime b "avatar.bin", none)
  | none =>
    match fsRead fs "avatar.png" with
    | some lb => (loadAvatarCommon fs statMTime lb "avatar.png", none)
    | none => (st, some "read avatar")

/-- The avatar invariant of the spec: a non-empty avatar's fingerprint is
the leading 16 bytes of the SHA-256 of its bytes; an empty avatar has an
empty fingerprint and zero mtime and mime. -/
def avatarInvariant (st : AvatarState) : Prop :=
  (st.avatarPNG ≠ [] → st.avatarHash = (sha256 st.avatarPNG).take 16) ∧
  (st.avatarPNG = [] → st.avatarHash = [] ∧ st.avatarMTime = 0 ∧
    st.avatarMime = "")

/-! ## C10 — announce registry (announce.go `recordAnnounce`,
`announceSnapshot`, `AnnouncesJSON`) -/

/-- One observed announce (announce.go `AnnounceEntry`). -/
structure AnnounceEntry where
  destinationHashHex : String
  displayName : String
  lastSeen : Int
  appDataLen : Nat
  deriving Repr, DecidableEq

/-- Model of announce.go `recordAnnounce` (lines 64-74): write the entry
under its destination-hash key; the most recent write wins. -/
def recordAnnounce (m : List (String × AnnounceEntry)) (e : AnnounceEntry) :
    List (String × AnnounceEntry) :=
  assocSet m e.destinationHashHex e

/-- The registry the announce observer builds from a sequence of
observations, starting from the empty map made at Start. -/
def applyAnnounces (evs : List AnnounceEntry) :
    List (String × AnnounceEntry) :=
  evs.foldl recordAnnounce []

/-- The snapshot order: most recently seen first (the comparator of the
`sort.Slice` call, announce.go:86-88). -/
def announceMoreRecent (a b : AnnounceEntry) : Prop := b.lastSeen ≤ a.lastSeen

instance : DecidableRel announceMoreRecent :=
  fun a b => inferInstanceAs (Decidable (b.lastSeen ≤ a.lastSeen))

instance : IsTotal AnnounceEntry announceMoreRecent :=
  ⟨fun a b => le_total b.lastSeen a.lastSeen⟩

instance : IsTrans AnnounceEntry announceMoreRecent :=
  ⟨fun _ _ _ hab hbc => le_trans hbc hab⟩

/-- Model of announce.go `announceSnapshot` (lines 76-90): the registry's
values sorted by last-seen, most recent first (`sort.Slice` modelled by a
sort meeting the same contract). -/
def announceSnapshot (m : List (String × AnnounceEntry)) :
    List AnnounceEntry :=
  (m.map Prod.snd).insertionSort announceMoreRecent

/-- The response value `AnnouncesJSON` marshals (announce.go:92-104). -/
structure AnnouncesResponse where
  announces : List AnnounceEntry
  deriving Repr, DecidableEq

/-- Model of announce.go `AnnouncesJSON` up to JSON marshalling. -/
def announcesJSON (m : List (String × AnnounceEntry)) : AnnouncesResponse :=
  ⟨announceSnapshot m⟩

/-! ## Theorems -/

/-- The SHA-256 model reproduces the published digest of the empty message. -/
theorem sha256_empty_vector :
    sha256 [] =
      [0xe3, 0xb0, 0xc4, 0x42, 0x98, 0xfc, 0x1c, 0x14,
       0x9a, 0xfb, 0xf4, 0xc8, 0x99, 0x6f, 0xb9, 0x24,
       0x27, 0xae, 0x41, 0xe4, 0x64, 0x9b, 0x93, 0x4c,
       0xa4, 0x95, 0x99, 0x1b, 0x78, 0x52, 0xb8, 0x55] := by
  decide

/-- The SHA-256 model reproduces the published digest of `"abc"`. -/
theorem sha256_abc_vector :
    sha256 [0x61, 0x62, 0x63] =
      [0xba, 0x78, 0x16, 0xbf, 0x8f, 0x01, 0xcf, 0xea,
       0x41, 0x41, 0x40, 0xde, 0x5d, 0xae, 0x22, 0x23,
       0xb0, 0x03, 0x61, 0xa3, 0x96, 0x17, 0x7a, 0x9c,
       0xb4, 0x10, 0xff, 0x61, 0xf2, 0x00, 0x15, 0xad] := by
  decide

/-- C1: for every node state, the announce app-data is the canonical msgpack
packing of exactly three elements in order — the display-name bytes (empty
when no display name is set), the stamp cost or nil, and the avatar map or
nil; the avatar map, when present, has exactly the keys h, t, s, u in that
shape; and the stamp-cost element is non-nil exactly when a delivery stamp
cost is configured and lies strictly between 0 and 255. -/
theorem announceAppData_three_elements (st : AnnounceComposeState) :
    ∃ stamp avatar : MP,
      announceAppData st =
        packb (.arr [.bin (announceDisplayNameBytes st), stamp, avatar]) ∧
      (st.displayName = "" → announceDisplayNameBytes st = []) ∧
      (stamp ≠ MP.nil ↔ ∃ c : Int, st.deliveryStampCost = some c ∧ 0 < c ∧ c < 255) ∧
      (∀ c : Int, st.deliveryStampCost = some c → 0 < c → c < 255 → stamp = .int c) ∧
      (avatar ≠ MP.nil ↔ st.avatarHash ≠ []) ∧
      (avatar = MP.nil ∨ ∃ t : String,
        avatar = .map [(.str "h", .bin st.avatarHash), (.str "t", .str t),
                       (.str "s", .int st.avatarPNG.length),
                       (.str "u", .int st.avatarMTime)]) := by
  refine ⟨announceStampCostVal st, announceAvatarVal st, rfl, ?_, ?_, ?_, ?_, ?_⟩
  · intro h
    simp [announceDisplayNameBytes, h]
  · cases h : st.deliveryStampCost with
    | none => simp [announceStampCostVal, h]
    | some c =>
      by_cases hc : 0 < c ∧ c < 255
      · simp [announceStampCostVal, h, hc]
      · simp only [announceStampCostVal, h, if_neg hc, ne_eq, not_true_eq_false,
          false_iff, not_exists]
        intro x hx
        obtain ⟨heq, h1, h2⟩ := hx
        obtain rfl : c = x := Option.some.inj heq
        exact hc ⟨h1, h2⟩
  · intro c hc h1 h2
    simp [announceStampCostVal, hc, h1, h2]
  · by_cases h : st.avatarHash = []
    · simp [announceAvatarVal, h]
    · have : st.avatarHash.length > 0 := List.length_pos.mpr h
      simp [announceAvatarVal, this, h]
  · by_cases h : st.avatarHash = []
    · left
      simp [announceAvatarVal, h]
    · right
      have : st.avatarHash.length > 0 := List.length_pos.mpr h
      exact ⟨if st.avatarMime = "" then "image/png" else st.avatarMime,
        by simp [announceAvatarVal, this]⟩

/-- C2 counterexample: run the claim's own scenario — announce `a` enters
and is in flight, announce `b` sets the queued flag and returns, then the
attempt aborts at the 20-second readiness deadline with the skipped log.
The claim predicts the queued flag is consumed and one follow-up fires with
reason "queued"; the code leaves the flag set and fires nothing. -/
theorem announce_deadline_abort_cex :
    announceEnter ⟨false, false⟩ = (⟨true, false⟩, true) ∧
    announceEnter ⟨true, false⟩ = (⟨true, true⟩, false) ∧
    announceFinishDeadline ⟨true, true⟩ = (⟨false, true⟩, none) ∧
    ¬((announceFinishDeadline ⟨true, true⟩).1.queued = false ∧
      (announceFinishDeadline ⟨true, true⟩).2 = some "queued") := by
  decide

/-- C2 (amended): a second announce request while one is in flight sets the
queued flag and returns immediately; when the in-flight attempt completes
by emitting, the queued flag, if set, is consumed and exactly one follow-up
announce with reason "queued" is fired; when the attempt aborts at the
20-second readiness deadline with the skipped log, the in-flight flag is
cleared but the queued flag is retained and no follow-up fires (the next
trigger retries). -/
theorem announce_singleflight_coalescing (s : AnnFlags) :
    (s.inFlight = true →
      announceEnter s = ({ inFlight := true, queued := true }, false)) ∧
    (announceFinishEmit s).1.inFlight = false ∧
    (announceFinishEmit s).1.queued = false ∧
    ((announceFinishEmit s).2 = some "queued" ↔ s.queued = true) ∧
    ((announceFinishEmit s).2 = none ↔ s.queued = false) ∧
    announceFinishDeadline s = ({ inFlight := false, queued := s.queued }, none) := by
  obtain ⟨i, q⟩ := s
  cases i <;> cases q <;> decide

/-- Erasing one key leaves lookups of other keys unchanged. -/
theorem lookup_assocErase_ne {α : Type} (l : List (String × α)) (k nm : String)
    (h : ¬nm = k) : List.lookup nm (assocErase l k) = List.lookup nm l := by
  induction l with
  | nil => rfl
  | cons p t ih =>
    by_cases hpk : p.1 = k
    · have hb : (p.1 == k) = true := beq_iff_eq.mpr hpk
      have hne : (nm == p.1) = false := by
        refine beq_eq_false_iff_ne.mpr ?_
        rw [hpk]
        exact h
      simp [assocErase, List.filter_cons, hb, List.lookup, hne] at ih ⊢
      exact ih
    · have hb : (p.1 == k) = false := beq_eq_false_iff_ne.mpr hpk
      simp only [assocErase, List.filter_cons, hb, Bool.not_false, if_pos] at ih ⊢
      by_cases hnp : nm = p.1
      · have : (nm == p.1) = true := beq_iff_eq.mpr hnp
        simp [List.lookup, this]
      · have : (nm == p.1) = false := beq_eq_false_iff_ne.mpr hnp
        simp [List.lookup, this]
        exact ih

/-- A fresh map write is what a lookup of that key sees. -/
theorem lookup_assocSet_self {α : Type} (l : List (String × α)) (k : String)
    (v : α) : List.lookup k (assocSet l k v) = some v := by
  simp [assocSet, List.lookup]

/-- A map write leaves lookups of other keys unchanged. -/
theorem lookup_assocSet_ne {α : Type} (l : List (String × α)) (k nm : String)
    (v : α) (h : ¬nm = k) :
    List.lookup nm (assocSet l k v) = List.lookup nm l := by
  have hb : (nm == k) = false := beq_eq_false_iff_ne.mpr h
  simp only [assocSet, List.lookup, hb]
  exact lookup_assocErase_ne l k nm h

/-- The watchdog scan computes, over its accumulator: the or of the online
flags of the tracked names, and the running maximum of the offline
durations measured from a reference start time that the accumulator map
agrees with on every offline name. -/
theorem watchdogFold_spec (sbs sbn : List (String × Bool)) (now : Int)
    (start : String → Int) :
    ∀ (cfgs : List IfaceCfg) (any₀ : Bool) (offl₀ : List (String × Int))
      (long₀ : Int),
      (∀ nm, ifaceOnline sbs sbn nm = false →
        ((List.lookup nm offl₀).getD now : Int) = start nm) →
      (cfgs.foldl (watchdogStep sbs sbn now) (any₀, offl₀, long₀)).1
          = (any₀ || (cfgNames cfgs).any (ifaceOnline sbs sbn)) ∧
      (cfgs.foldl (watchdogStep sbs sbn now) (any₀, offl₀, long₀)).2.2
          = ((cfgNames cfgs).filter (fun nm => !(ifaceOnline sbs sbn nm))).foldl
              (fun m nm => max m (now - start nm)) long₀ := by
  intro cfgs
  induction cfgs with
  | nil =>
    intro any₀ offl₀ long₀ _
    simp [cfgNames]
  | cons c rest ih =>
    intro any₀ offl₀ long₀ hinv
    by_cases hnm : trimGo c.name = ""
    · have hstep : watchdogStep sbs sbn now (any₀, offl₀, long₀) c
          = (any₀, offl₀, long₀) := by
        simp [watchdogStep, hnm]
      have hnames : cfgNames (c :: rest) = cfgNames rest := by
        simp [cfgNames, hnm]
      rw [List.foldl_cons, hstep, hnames]
      exact ih any₀ offl₀ long₀ hinv
    · have hnames : cfgNames (c :: rest) = trimGo c.name :: cfgNames rest := by
        simp [cfgNames, hnm]
      by_cases hon : ifaceOnline sbs sbn (trimGo c.name) = true
      · have hstep : watchdogStep sbs sbn now (any₀, offl₀, long₀) c
            = (true, assocErase offl₀ (trimGo c.name), long₀) := by
          simp [watchdogStep, hnm, hon]
        have hinv2 : ∀ nm, ifaceOnline sbs sbn nm = false →
            ((List.lookup nm (assocErase offl₀ (trimGo c.name))).getD now : Int)
              = start nm := by
          intro nm hoff
          have hne : ¬nm = trimGo c.name := by
            intro he
            rw [he, hon] at hoff
            exact Bool.true_eq_false.mp hoff
          rw [lookup_assocErase_ne _ _ _ hne]
          exact hinv nm hoff
        obtain ⟨ih1, ih2⟩ := ih true (assocErase offl₀ (trimGo c.name)) long₀ hinv2
        constructor
        · rw [List.foldl_cons, hstep, ih1, hnames]
          simp [hon]
        · rw [List.foldl_cons, hstep, ih2, hnames]
          simp [hon]
      · have hoff : ifaceOnline sbs sbn (trimGo c.name) = false :=
          Bool.not_eq_true _ ▸ Bool.of_not_eq_true hon
        cases hlk : List.lookup (trimGo c.name) offl₀ with
        | some s₀ =>
          have hstep : watchdogStep sbs sbn now (any₀, offl₀, long₀) c
              = (any₀, offl₀, max long₀ (now - s₀)) := by
            simp [watchdogStep, hnm, hoff, hlk]
          have hs : s₀ = start (trimGo c.name) := by
            have := hinv (trimGo c.name) hoff
            rw [hlk] at this
            simpa using this
          obtain ⟨ih1, ih2⟩ := ih any₀ offl₀ (max long₀ (now - s₀)) hinv
          constructor
          · rw [List.foldl_cons, hstep, ih1, hnames]
            simp [hoff]
          · rw [List.foldl_cons, hstep, ih2, hnames]
            simp [hoff, hs]
        | none =>
          have hstep : watchdogStep sbs sbn now (any₀, offl₀, long₀) c
              = (any₀, assocSet offl₀ (trimGo c.name) now, max long₀ 0) := by
            simp [watchdogStep, hnm, hoff, hlk]
          have hsnow : start (trimGo c.name) = now := by
            have := hinv (trimGo c.name) hoff
            rw [hlk] at this
            simpa using this.symm
          have hinv2 : ∀ nm, ifaceOnline sbs sbn nm = false →
              ((List.lookup nm (assocSet offl₀ (trimGo c.name) now)).getD now :
                Int) = start nm := by
            intro nm hmoff
            by_cases he : nm = trimGo c.name
            · rw [he, lookup_assocSet_self]
              simpa [he] using hsnow.symm
            · rw [lookup_assocSet_ne _ _ _ _ he]
              exact hinv nm hmoff
          obtain ⟨ih1, ih2⟩ :=
            ih any₀ (assocSet offl₀ (trimGo c.name) now) (max long₀ 0) hinv2
          constructor
          · rw [List.foldl_cons, hstep, ih1, hnames]
            simp [hoff]
          · rw [List.foldl_cons, hstep, ih2, hnames]
            simp [hoff, hsnow]

/-- C3: for every watchdog tick, an interface reset is triggered exactly
when there is at least one enabled interface, no enabled interface is
online, the longest per-interface offline duration is at least 6 seconds,
and the previous reset (if any) happened at least 12 seconds ago; if any
of these conditions fails, no reset occurs on that tick. -/
theorem watchdog_reset_iff (inp : WatchdogInput) :
    (maybeResetInterfacesOnStall inp).didReset = true ↔
      (inp.enabledCfg ≠ [] ∧ specAnyEnabledOnline inp = false ∧
       6000 ≤ specLongestOffline inp ∧
       ∀ t, inp.lastIfaceReset = some t → 12000 ≤ inp.now - t) := by
  obtain ⟨h1, h2⟩ := watchdogFold_spec inp.statusByShort inp.statusByName inp.now
    (fun nm => (List.lookup nm inp.ifaceOfflineAt).getD inp.now)
    inp.enabledCfg false inp.ifaceOfflineAt 0 (fun nm _ => rfl)
  by_cases hemp : inp.enabledCfg = []
  · simp [maybeResetInterfacesOnStall, hemp]
  · have hne : inp.enabledCfg.isEmpty = false := by
      simpa [List.isEmpty_iff] using hemp
    have hany : (inp.enabledCfg.foldl
        (watchdogStep inp.statusByShort inp.statusByName inp.now)
        (false, inp.ifaceOfflineAt, 0)).1 = specAnyEnabledOnline inp := by
      rw [h1]
      simp [specAnyEnabledOnline]
    have hlong : (inp.enabledCfg.foldl
        (watchdogStep inp.statusByShort inp.statusByName inp.now)
        (false, inp.ifaceOfflineAt, 0)).2.2 = specLongestOffline inp := by
      rw [h2]
      simp [specLongestOffline, specOfflineDur]
    unfold maybeResetInterfacesOnStall
    rw [if_neg (by simp [hne])]
    simp only [hany, hlong]
    split_ifs with hA hB
    · refine iff_of_false (by simp) ?_
      rintro ⟨-, h, -, -⟩
      rw [hA] at h
      cases h
    · refine iff_of_false (by simp) ?_
      rintro ⟨-, -, h6, -⟩
      omega
    · -- the last-reset guard
      rename_i h12
      cases hr : inp.lastIfaceReset with
      | none =>
        rw [hr] at h12
        simp at h12
      | some t =>
        rw [hr] at h12
        simp only [Option.elim, decide_eq_true_eq] at h12
        refine iff_of_false (by simp) ?_
        rintro ⟨-, -, -, h⟩
        have := h t rfl
        omega
    · rename_i h12
      refine iff_of_true rfl ⟨hemp, Bool.of_not_eq_true hA, by omega, ?_⟩
      intro u hu
      rw [hu] at h12
      simp only [Option.elim, decide_eq_true_eq] at h12
      omega

/-- C4: a send whose decoded destination hash equals the node's delivery
destination hash never invokes the outbound queue (HandleOutbound); when
construction and packing succeed the packed message is handed to the
router's local delivery entry point, and the call returns the message on
acceptance and fails with "local loopback delivery failed" on rejection. -/
theorem sendHex_self_loopback (env : SendEnv) (destHex : String)
    (h : hexDecode destHex = some env.selfHash)
    (hlen : env.selfHash.length = 16) :
    (sendHex env destHex).handleOutbound = false ∧
    (env.createDestOk = true → env.newLXMOk = true → env.packOk = true →
      (sendHex env destHex).lxmDelivery = true ∧
      (env.lxmDeliveryOk = true → (sendHex env destHex).outcome = .ok ()) ∧
      (env.lxmDeliveryOk = false →
        (sendHex env destHex).outcome =
          .error "local loopback delivery failed")) := by
  obtain ⟨sh, rk, cd, nl, pk, ld⟩ := env
  simp only at h hlen
  cases cd <;> cases nl <;> cases pk <;> cases ld <;>
    simp [sendHex, h, hlen]

/-- C4 witness: the loopback theorem applied at the all-zero destination
with a rejecting router. -/
theorem sendHex_self_loopback_witness :
    (sendHex loopbackSendEnv "00000000000000000000000000000000").handleOutbound
        = false ∧
    (sendHex loopbackSendEnv "00000000000000000000000000000000").outcome
        = .error "local loopback delivery failed" := by
  have h := sendHex_self_loopback loopbackSendEnv
    "00000000000000000000000000000000" (by decide) (by decide)
  exact ⟨h.1, (h.2 rfl rfl rfl).2.2 rfl⟩

/-- C5 counterexample: `ContactInfoHex` does not rewrite a zero timeout to
5 seconds — at timeout 0 it issues no path request at all, while at the
supposed rewritten timeout of 5 s it does, so the zero-timeout call is not
the 5-second call. -/
theorem contactInfo_no_timeout_rewrite_cex :
    (contactInfoHex coldContactEnv "00000000000000000000000000000000"
      0).2.pathRequested = false ∧
    (contactInfoHex coldContactEnv "00000000000000000000000000000000"
      5000).2.pathRequested = true := by
  decide

/-- C5 (amended): a zero or negative caller-supplied timeout is rewritten
to a default before use by the fetch operations — 5 seconds for the
avatar fetch, 10 seconds for the attachment fetch; the contact-info
operation instead treats a non-positive timeout as a local-recall-only
mode that performs no network work at all. -/
theorem effective_timeout_defaults (t : Int) (h : t ≤ 0) :
    contactAvatarEffectiveTimeout t = 5000 ∧
    contactAttachmentEffectiveTimeout t = 10000 ∧
    ∀ (env : ContactEnv) (destHex : String),
      (contactInfoHex env destHex t).2.pathRequested = false ∧
      (contactInfoHex env destHex t).2.polled = false := by
  refine ⟨by simp [contactAvatarEffectiveTimeout, h],
    by simp [contactAttachmentEffectiveTimeout, h], ?_⟩
  intro env destHex
  cases hd : hexDecode destHex with
  | none => simp [contactInfoHex, hd]
  | some destHash =>
    by_cases hlen : destHash.length = 16
    · simp only [contactInfoHex, hd]
      rw [if_neg (by simp [hlen]), if_pos h]
      cases env.identityRecall destHash with
      | none => simp
      | some ad => by_cases had : ad = [] <;> simp [had]
    · simp [contactInfoHex, hd, hlen]

/-- C5 witness: the amended timeout claim at timeout 0. -/
theorem effective_timeout_defaults_witness :
    contactAvatarEffectiveTimeout 0 = 5000 ∧
    contactAttachmentEffectiveTimeout 0 = 10000 := by
  have h := effective_timeout_defaults 0 (le_refl 0)
  exact ⟨h.1, h.2.1⟩

/-- C6: for every valid 16-byte destination hash, `ContactInfoHex` with
timeout 0 performs no network work — no path request, no polling — and
returns exactly what the transport's local identity recall provides
(possibly the empty result). -/
theorem contactInfo_zero_timeout_local (env : ContactEnv) (destHex : String)
    (destHash : List Nat) (h : hexDecode destHex = some destHash)
    (hlen : destHash.length = 16) :
    (contactInfoHex env destHex 0).2 = ⟨false, false⟩ ∧
    (contactInfoHex env destHex 0).1 = .ok
      (match env.identityRecall destHash with
       | none => ⟨[], none⟩
       | some appData =>
         if appData = [] then ⟨[], none⟩
         else contactInfoParse env appData) := by
  simp only [contactInfoHex, h]
  rw [if_neg (by simp [hlen]), if_pos (by omega : (0 : Int) ≤ 0)]
  cases env.identityRecall destHash with
  | none => exact ⟨rfl, rfl⟩
  | some ad =>
    by_cases had : ad = [] <;> simp [had]

/-- C6 witness: zero-timeout recall at a cached identity whose app-data the
unpacker rejects. -/
theorem contactInfo_zero_timeout_local_witness :
    (contactInfoHex cachedContactEnv "00000000000000000000000000000000"
      0).2 = ⟨false, false⟩ ∧
    (contactInfoHex cachedContactEnv "00000000000000000000000000000000"
      0).1 = .ok ⟨[], none⟩ := by
  have h := contactInfo_zero_timeout_local cachedContactEnv
    "00000000000000000000000000000000" (List.replicate 16 0)
    (by decide) (by decide)
  exact ⟨h.1, h.2⟩

/-- A predicate false on every element leaves `dropWhile` untouched. -/
theorem dropWhile_eq_of_forall {α : Type} (p : α → Bool) (l : List α)
    (h : ∀ c ∈ l, p c = false) : l.dropWhile p = l := by
  cases l with
  | nil => rfl
  | cons a t =>
    have ha := h a (List.mem_cons_self a t)
    simp [List.dropWhile_cons, ha]

/-- Trimming a list with no whitespace is the identity. -/
theorem trimChars_eq_of_forall (l : List Char)
    (h : ∀ c ∈ l, isSpaceGo c = false) : trimChars l = l := by
  unfold trimChars
  rw [dropWhile_eq_of_forall _ _ h,
    dropWhile_eq_of_forall _ _ (fun c hc => h c (List.mem_reverse.mp hc)),
    List.reverse_reverse]

/-- A function that fixes every element maps a list to itself. -/
theorem map_id_of_forall {α : Type} (f : α → α) (l : List α)
    (h : ∀ a ∈ l, f a = a) : l.map f = l := by
  induction l with
  | nil => rfl
  | cons a t ih =>
    rw [List.map_cons, h a (List.mem_cons_self a t),
      ih (fun b hb => h b (List.mem_cons_of_mem a hb))]

/-- Hex digit characters are not whitespace. -/
theorem hexDigitChar_not_space (n : Nat) (h : n < 16) :
    isSpaceGo (hexDigitChar n) = false := by
  interval_cases n <;> decide

/-- Hex digit characters are fixed by ASCII lower-casing. -/
theorem hexDigitChar_lower_fix (n : Nat) (h : n < 16) :
    (if 'A' ≤ hexDigitChar n ∧ hexDigitChar n ≤ 'Z'
     then Char.ofNat ((hexDigitChar n).toNat + 32) else hexDigitChar n)
      = hexDigitChar n := by
  interval_cases n <;> decide

/-- Every character of a hex encoding is a hex digit character. -/
theorem mem_hexEncode_data (bs : List Nat) (c : Char)
    (h : c ∈ (hexEncode bs).data) : ∃ n, n < 16 ∧ c = hexDigitChar n := by
  have h' : c ∈ bs.flatMap fun b => [hexDigitChar (b / 16 % 16), hexDigitChar (b % 16)] := h
  obtain ⟨b, -, hc⟩ := List.mem_flatMap.mp h'
  simp only [List.mem_cons, List.not_mem_nil, or_false] at hc
  rcases hc with hc | hc
  · exact ⟨b / 16 % 16, Nat.mod_lt _ (by omega), hc⟩
  · exact ⟨b % 16, Nat.mod_lt _ (by omega), hc⟩

/-- A hex encoding is already trimmed and lower-case. -/
theorem hexEncode_normalize (bs : List Nat) :
    toLowerGo (trimGo (hexEncode bs)) = hexEncode bs := by
  have h1 : trimGo (hexEncode bs) = hexEncode bs := by
    unfold trimGo
    rw [trimChars_eq_of_forall _ (fun c hc => by
      obtain ⟨n, hn, rfl⟩ := mem_hexEncode_data bs c hc
      exact hexDigitChar_not_space n hn)]
  have h2 : toLowerGo (hexEncode bs) = hexEncode bs := by
    unfold toLowerGo
    rw [map_id_of_forall _ _ (fun c hc => by
      obtain ⟨n, hn, rfl⟩ := mem_hexEncode_data bs c hc
      exact hexDigitChar_lower_fix n hn)]
  rw [h1, h2]

/-- A SHA-256 digest is never empty. -/
theorem sha256_ne_nil (msg : List Nat) : sha256 msg ≠ [] := by
  simp [sha256, be32Bytes]

/-- Hex encoding of non-empty bytes is a non-empty string. -/
theorem hexEncode_ne_empty (bs : List Nat) (h : bs ≠ []) : hexEncode bs ≠ "" := by
  cases bs with
  | nil => exact absurd rfl h
  | cons b t =>
    intro he
    have hd := congrArg String.data he
    simp [hexEncode] at hd

/-- A successful lookup's key is among the keys. -/
theorem mem_keys_of_lookup {α : Type} (l : List (String × α)) (k : String)
    (v : α) (h : List.lookup k l = some v) : k ∈ l.map Prod.fst := by
  induction l with
  | nil => cases h
  | cons p t ih =>
    by_cases hk : k = p.1
    · simp [hk]
    · have hb : (k == p.1) = false := beq_eq_false_iff_ne.mpr hk
      simp only [List.lookup, hb] at h
      exact List.mem_cons_of_mem _ (ih h)

/-- A successful lookup's pair is in the list. -/
theorem lookup_mem_pairs {α : Type} (l : List (String × α)) (k : String)
    (v : α) (h : List.lookup k l = some v) : (k, v) ∈ l := by
  induction l with
  | nil => cases h
  | cons p t ih =>
    by_cases hk : k = p.1
    · have hb : (k == p.1) = true := beq_iff_eq.mpr hk
      simp only [List.lookup, hb, if_pos] at h
      obtain rfl : v = p.2 := (Option.some.inj h).symm
      rw [hk]
      exact List.mem_cons_self _ _
    · have hb : (k == p.1) = false := beq_eq_false_iff_ne.mpr hk
      simp only [List.lookup, hb] at h
      exact List.mem_cons_of_mem _ (ih h)

/-- A member pair's key looks up successfully. -/
theorem lookup_isSome_of_mem {α : Type} (l : List (String × α))
    (p : String × α) (h : p ∈ l) : (List.lookup p.1 l).isSome = true := by
  induction l with
  | nil => cases h
  | cons q t ih =>
    by_cases hk : p.1 = q.1
    · have hb : (p.1 == q.1) = true := beq_iff_eq.mpr hk
      simp [List.lookup, hb]
    · have hb : (p.1 == q.1) = false := beq_eq_false_iff_ne.mpr hk
      rcases List.mem_cons.mp h with rfl | hmem
      · exact absurd rfl hk
      · simp only [List.lookup, hb]
        exact ih hmem

/-- A map write keeps the filesystem well-formed. -/
theorem fsWF_fsWrite (fs : FS) (p : String) (b : List Nat) (h : fsWF fs) :
    fsWF (fsWrite fs p b) := by
  unfold fsWF fsWrite assocSet at *
  refine List.nodup_cons.mpr ⟨?_, ?_⟩
  · intro hmem
    obtain ⟨q, hq, hfst⟩ := List.mem_map.mp hmem
    have hpred := List.of_mem_filter hq
    rw [hfst] at hpred
    simp at hpred
  · exact List.Nodup.sublist ((List.filter_sublist _).map Prod.fst) h

/-- Appending different-length suffixes to one string gives different
strings. -/
theorem append_ne_of_len (s t u : String) (h : ¬t.length = u.length) :
    ¬(s ++ t) = (s ++ u) := by
  intro he
  have hl := congrArg String.length he
  rw [String.length_append, String.length_append] at hl
  omega

/-- Characterisation of one store run (part_001 `StoreOutgoingAttachment`)
on non-empty data: the returned descriptor, the bin file's content, when
the bin path is among the written paths, and preservation of filesystem
well-formedness. -/
theorem store_spec (fs : FS) (data : List Nat) (mime name : String)
    (hdata : data ≠ []) :
    (storeOutgoingAttachment fs data mime name).result =
      .ok ⟨hexEncode (sha256 data), trimGo mime, sanitizeAttachmentName name,
           data.length, 0, true⟩ ∧
    fsRead (storeOutgoingAttachment fs data mime name).fs (outBinPath data) =
      (if (fsRead fs (outBinPath data)).isSome
       then fsRead fs (outBinPath data) else some data) ∧
    (outBinPath data ∈ (storeOutgoingAttachment fs data mime name).writes ↔
      fsRead fs (outBinPath data) = none) ∧
    (fsWF fs → fsWF (storeOutgoingAttachment fs data mime name).fs) := by
  have hbm : ¬("attachments/out/" ++ hexEncode (sha256 data) ++ ".bin") =
      ("attachments/out/" ++ hexEncode (sha256 data) ++ ".mime") :=
    append_ne_of_len _ _ _ (by decide)
  have hbn : ¬("attachments/out/" ++ hexEncode (sha256 data) ++ ".bin") =
      ("attachments/out/" ++ hexEncode (sha256 data) ++ ".name") :=
    append_ne_of_len _ _ _ (by decide)
  refine ⟨?_, ?_, ?_, ?_⟩
  · simp [storeOutgoingAttachment, hdata]
  · by_cases hb : (List.lookup
        ("attachments/out/" ++ hexEncode (sha256 data) ++ ".bin") fs).isSome <;>
    by_cases hm : trimGo mime = "" <;>
    by_cases hn : sanitizeAttachmentName name = "" <;>
      simp [storeOutgoingAttachment, outBinPath, hdata, hb, hm, hn, fsRead,
        fsWrite, lookup_assocSet_self, lookup_assocSet_ne _ _ _ _ hbm,
        lookup_assocSet_ne _ _ _ _ hbn]
  · by_cases hb : (List.lookup
        ("attachments/out/" ++ hexEncode (sha256 data) ++ ".bin") fs).isSome <;>
    by_cases hm : trimGo mime = "" <;>
    by_cases hn : sanitizeAttachmentName name = "" <;>
      simp [storeOutgoingAttachment, outBinPath, hdata, hb, hm, hn, hbm, hbn,
        Option.isSome_iff_ne_none, fsRead] <;>
      first
      | (obtain ⟨v, hv⟩ := Option.isSome_iff_exists.mp hb
         exact ⟨v, lookup_mem_pairs _ _ _ hv⟩)
      | (intro a b hmem heq
         exact hb (heq ▸ lookup_isSome_of_mem _ (a, b) hmem))
  · intro hwf
    by_cases hb : (List.lookup
        ("attachments/out/" ++ hexEncode (sha256 data) ++ ".bin") fs).isSome <;>
    by_cases hm : trimGo mime = "" <;>
    by_cases hn : sanitizeAttachmentName name = "" <;>
      simp [storeOutgoingAttachment, outBinPath, hdata, hb, hm, hn, fsRead] <;>
      repeat
        first
        | exact hwf
        | apply fsWF_fsWrite

/-- A loader run over a normalised non-empty hash returns the stored bytes. -/
theorem load_of_read (fs : FS) (hhex : String) (b : List Nat)
    (hnorm : toLowerGo (trimGo hhex) = hhex) (hne : ¬hhex = "")
    (hread : fsRead fs ("attachments/out/" ++ hhex ++ ".bin") = some b) :
    loadOutgoingAttachmentByHashHex fs hhex = .ok
      (⟨hhex,
        trimGo (bytesToStringGo
          ((fsRead fs ("attachments/out/" ++ hhex ++ ".mime")).getD [])),
        trimGo (bytesToStringGo
          ((fsRead fs ("attachments/out/" ++ hhex ++ ".name")).getD [])),
        b.length, 0, true⟩, b) := by
  simp [loadOutgoingAttachmentByHashHex, hnorm, hne, hread]

/-- C7: storing non-empty bytes and loading by the hex of their SHA-256
returns exactly those bytes; storing the same bytes twice leaves exactly
one bin file for them, written (if at all) only by the first store — the
second store's writes never touch the bin path.  The hypotheses say the
filesystem has one entry per path and that a pre-existing file at the
content-addressed bin path already holds those bytes. -/
theorem attachment_store_roundtrip (fs : FS) (data : List Nat)
    (mime name : String) (hwf : fsWF fs) (hdata : data ≠ [])
    (haddr : ∀ b, fsRead fs (outBinPath data) = some b → b = data) :
    (∃ info, loadOutgoingAttachmentByHashHex
        (storeOutgoingAttachment fs data mime name).fs
        (hexEncode (sha256 data)) = .ok (info, data)) ∧
    fsRead (storeOutgoingAttachment fs data mime name).fs (outBinPath data) =
      some data ∧
    (fsRead fs (outBinPath data) = none →
      outBinPath data ∈ (storeOutgoingAttachment fs data mime name).writes) ∧
    outBinPath data ∉ (storeOutgoingAttachment
      (storeOutgoingAttachment fs data mime name).fs data mime name).writes ∧
    fsRead (storeOutgoingAttachment
      (storeOutgoingAttachment fs data mime name).fs data mime name).fs
      (outBinPath data) = some data ∧
    fsWF (storeOutgoingAttachment
      (storeOutgoingAttachment fs data mime name).fs data mime name).fs ∧
    ((storeOutgoingAttachment
      (storeOutgoingAttachment fs data mime name).fs data mime name).fs.map
        Prod.fst).count (outBinPath data) = 1 := by
  obtain ⟨hres1, hread1, hw1, hwf1⟩ := store_spec fs data mime name hdata
  have hbin1 : fsRead (storeOutgoingAttachment fs data mime name).fs
      (outBinPath data) = some data := by
    rw [hread1]
    by_cases hb : (fsRead fs (outBinPath data)).isSome
    · rw [if_pos hb]
      obtain ⟨b, hbeq⟩ := Option.isSome_iff_exists.mp hb
      rw [hbeq, haddr b hbeq]
    · rw [if_neg hb]
  obtain ⟨hres2, hread2, hw2, hwf2⟩ :=
    store_spec (storeOutgoingAttachment fs data mime name).fs data mime name hdata
  have hbin2 : fsRead (storeOutgoingAttachment
      (storeOutgoingAttachment fs data mime name).fs data mime name).fs
      (outBinPath data) = some data := by
    rw [hread2, if_pos (by rw [hbin1]; rfl)]
    exact hbin1
  have hwf2' : fsWF (storeOutgoingAttachment
      (storeOutgoingAttachment fs data mime name).fs data mime name).fs :=
    hwf2 (hwf1 hwf)
  refine ⟨?_, hbin1, ?_, ?_, hbin2, hwf2', ?_⟩
  · exact ⟨_, load_of_read _ _ _ (hexEncode_normalize (sha256 data))
      (hexEncode_ne_empty _ (sha256_ne_nil data)) hbin1⟩
  · intro hnone
    exact hw1.mpr hnone
  · intro hmem
    have := hw2.mp hmem
    rw [hbin1] at this
    cases this
  · exact List.count_eq_one_of_mem hwf2'
      (mem_keys_of_lookup _ _ _ hbin2)

/-- C7 witness: the store/load contract applied to the bytes of "abc" on
an empty filesystem. -/
theorem attachment_store_roundtrip_witness :
    fsRead (storeOutgoingAttachment [] [0x61, 0x62, 0x63] "" "").fs
      (outBinPath [0x61, 0x62, 0x63]) = some [0x61, 0x62, 0x63] ∧
    outBinPath [0x61, 0x62, 0x63] ∉ (storeOutgoingAttachment
      (storeOutgoingAttachment [] [0x61, 0x62, 0x63] "" "").fs
      [0x61, 0x62, 0x63] "" "").writes := by
  have h := attachment_store_roundtrip [] [0x61, 0x62, 0x63] "" ""
    (by simp [fsWF]) (by decide) (by intro b hb; simp [fsRead] at hb)
  exact ⟨h.2.1, h.2.2.2.1⟩

/-- C8 counterexample: loading an avatar file that exists but is empty
succeeds and leaves empty avatar bytes with a non-empty fingerprint (the
leading 16 bytes of the SHA-256 of the empty string), so the
empty-bytes-empty-fingerprint half of the invariant fails after this
avatar operation. -/
theorem avatar_invariant_load_empty_cex :
    (loadAvatarFromDisk ⟨[], [], 0, ""⟩ [("avatar.bin", [])]
      (fun _ => 0)).2 = none ∧
    (loadAvatarFromDisk ⟨[], [], 0, ""⟩ [("avatar.bin", [])]
      (fun _ => 0)).1.avatarPNG = [] ∧
    (loadAvatarFromDisk ⟨[], [], 0, ""⟩ [("avatar.bin", [])]
      (fun _ => 0)).1.avatarHash ≠ [] ∧
    ¬avatarInvariant (loadAvatarFromDisk ⟨[], [], 0, ""⟩
      [("avatar.bin", [])] (fun _ => 0)).1 := by
  refine ⟨by decide, by decide, by decide, ?_⟩
  intro hinv
  have h2 := (hinv.2 (by decide)).1
  revert h2
  decide

/-- C8 (amended): after a successful SetAvatarImage and after ClearAvatar
the avatar invariant holds outright; a failed SetAvatarImage and a failed
load leave the state untouched; a successful load always sets the
fingerprint to the leading 16 bytes of the SHA-256 of the loaded bytes,
so the invariant holds whenever the loaded file is non-empty — but a load
of an empty avatar file leaves empty bytes with a non-empty fingerprint. -/
theorem avatar_fingerprint_invariant (st : AvatarState) (fs : FS) (now : Int)
    (mime : String) (data : List Nat) (statMTime : String → Int) :
    ((setAvatarImage st fs now mime data).2.2 = none →
      avatarInvariant (setAvatarImage st fs now mime data).1) ∧
    ((setAvatarImage st fs now mime data).2.2 ≠ none →
      (setAvatarImage st fs now mime data).1 = st) ∧
    avatarInvariant (clearAvatar st fs).1 ∧
    ((loadAvatarFromDisk st fs statMTime).2 ≠ none →
      (loadAvatarFromDisk st fs statMTime).1 = st) ∧
    ((loadAvatarFromDisk st fs statMTime).2 = none →
      (loadAvatarFromDisk st fs statMTime).1.avatarHash =
        (sha256 (loadAvatarFromDisk st fs statMTime).1.avatarPNG).take 16) ∧
    ((loadAvatarFromDisk st fs statMTime).2 = none →
      (loadAvatarFromDisk st fs statMTime).1.avatarPNG ≠ [] →
      avatarInvariant (loadAvatarFromDisk st fs statMTime).1) := by
  refine ⟨?_, ?_, ?_, ?_, ?_, ?_⟩
  · intro hnone
    by_cases hd : data = []
    · simp [setAvatarImage, hd] at hnone
    · by_cases hm : (if trimGo mime = "" then detectAvatarMime data
          else trimGo mime) = ""
      · simp [setAvatarImage, hd, hm] at hnone
      · simp [setAvatarImage, hd, hm, avatarInvariant]
  · intro hsome
    by_cases hd : data = []
    · simp [setAvatarImage, hd]
    · by_cases hm : (if trimGo mime = "" then detectAvatarMime data
          else trimGo mime) = ""
      · simp [setAvatarImage, hd, hm]
      · simp [setAvatarImage, hd, hm] at hsome
  · simp [clearAvatar, avatarInvariant]
  · intro hsome
    cases hbin : fsRead fs "avatar.bin" with
    | some b => simp [loadAvatarFromDisk, hbin] at hsome
    | none =>
      cases hpng : fsRead fs "avatar.png" with
      | some lb => simp [loadAvatarFromDisk, hbin, hpng] at hsome
      | none => simp [loadAvatarFromDisk, hbin, hpng]
  · intro hnone
    cases hbin : fsRead fs "avatar.bin" with
    | some b => simp [loadAvatarFromDisk, hbin, loadAvatarCommon]
    | none =>
      cases hpng : fsRead fs "avatar.png" with
      | some lb => simp [loadAvatarFromDisk, hbin, hpng, loadAvatarCommon]
      | none => simp [loadAvatarFromDisk, hbin, hpng] at hnone
  · intro hnone hne
    cases hbin : fsRead fs "avatar.bin" with
    | some b =>
      simp [loadAvatarFromDisk, hbin, loadAvatarCommon] at hne ⊢
      simp [avatarInvariant, hne]
    | none =>
      cases hpng : fsRead fs "avatar.png" with
      | some lb =>
        simp [loadAvatarFromDisk, hbin, hpng, loadAvatarCommon] at hne ⊢
        simp [avatarInvariant, hne]
      | none => simp [loadAvatarFromDisk, hbin, hpng] at hnone

/-- C9: SetAvatarImage errs exactly on empty data or an empty,
undetectable mime, and on error it returns with the avatar state and the
files on disk unchanged. -/
theorem setAvatarImage_error_frame (st : AvatarState) (fs : FS) (now : Int)
    (mime : String) (data : List Nat) :
    ((setAvatarImage st fs now mime data).2.2 ≠ none ↔
      (data = [] ∨ (trimGo mime = "" ∧ detectAvatarMime data = ""))) ∧
    (data = [] →
      setAvatarImage st fs now mime data = (st, fs, some "empty avatar")) ∧
    (data ≠ [] → trimGo mime = "" → detectAvatarMime data = "" →
      setAvatarImage st fs now mime data =
        (st, fs, some "unknown avatar mime")) ∧
    ((setAvatarImage st fs now mime data).2.2 ≠ none →
      (setAvatarImage st fs now mime data).1 = st ∧
      (setAvatarImage st fs now mime data).2.1 = fs) := by
  by_cases hd : data = [] <;>
  by_cases hm0 : trimGo mime = "" <;>
  by_cases hdet : detectAvatarMime data = "" <;>
    simp [setAvatarImage, hd, hm0, hdet]

/-- A map write keeps the keys distinct, for any value type. -/
theorem assocSet_keys_nodup {α : Type} (l : List (String × α)) (k : String)
    (v : α) (h : (l.map Prod.fst).Nodup) :
    ((assocSet l k v).map Prod.fst).Nodup := by
  unfold assocSet
  refine List.nodup_cons.mpr ⟨?_, ?_⟩
  · intro hmem
    obtain ⟨q, hq, hfst⟩ := List.mem_map.mp hmem
    have hpred := List.of_mem_filter hq
    rw [hfst] at hpred
    simp at hpred
  · exact List.Nodup.sublist ((List.filter_sublist _).map Prod.fst) h

/-- A map write's keys are the written key and the previous keys. -/
theorem mem_keys_assocSet {α : Type} (l : List (String × α)) (k : String)
    (v : α) (a : String) :
    a ∈ (assocSet l k v).map Prod.fst ↔ a = k ∨ a ∈ l.map Prod.fst := by
  simp only [assocSet, List.map_cons, List.mem_cons, List.mem_map,
    List.mem_filter]
  constructor
  · rintro (rfl | ⟨p, ⟨hp, -⟩, rfl⟩)
    · left
      rfl
    · right
      exact ⟨p, hp, rfl⟩
  · rintro (rfl | ⟨p, hp, rfl⟩)
    · left
      rfl
    · by_cases hk : p.1 = k
      · left
        exact hk
      · right
        exact ⟨p, ⟨hp, by simp [hk]⟩, rfl⟩

/-- Folding announce records over a registry with distinct keys keeps the
keys distinct. -/
theorem applyAnnounces_keys_nodup :
    ∀ (evs : List AnnounceEntry) (acc : List (String × AnnounceEntry)),
      (acc.map Prod.fst).Nodup →
      ((evs.foldl recordAnnounce acc).map Prod.fst).Nodup := by
  intro evs
  induction evs with
  | nil => exact fun acc h => h
  | cons e t ih =>
    intro acc h
    exact ih _ (assocSet_keys_nodup acc e.destinationHashHex e h)

/-- Every registry pair's value carries the pair's key. -/
theorem applyAnnounces_key_eq :
    ∀ (evs : List AnnounceEntry) (acc : List (String × AnnounceEntry)),
      (∀ p ∈ acc, (p : String × AnnounceEntry).2.destinationHashHex = p.1) →
      ∀ p ∈ evs.foldl recordAnnounce acc, p.2.destinationHashHex = p.1 := by
  intro evs
  induction evs with
  | nil => exact fun acc h => h
  | cons e t ih =>
    intro acc h
    refine ih _ ?_
    intro p hp
    rcases List.mem_cons.mp hp with rfl | hmem
    · rfl
    · exact h p (List.mem_of_mem_filter hmem)

/-- The registry's keys are exactly the observed destination hashes. -/
theorem applyAnnounces_keys_mem :
    ∀ (evs : List AnnounceEntry) (acc : List (String × AnnounceEntry))
      (a : String),
      a ∈ (evs.foldl recordAnnounce acc).map Prod.fst ↔
        a ∈ acc.map Prod.fst ∨ a ∈ evs.map (·.destinationHashHex) := by
  intro evs
  induction evs with
  | nil =>
    intro acc a
    simp
  | cons e t ih =>
    intro acc a
    rw [List.foldl_cons, ih]
    rw [show recordAnnounce acc e = assocSet acc e.destinationHashHex e
      from rfl]
    rw [mem_keys_assocSet]
    simp only [List.map_cons, List.mem_cons]
    tauto

/-- C10: the announce snapshot (and hence the list AnnouncesJSON
marshals) lists the registry's entries sorted most-recently-seen first,
is a permutation of the registry's values, carries each destination-hash
key exactly once, and covers exactly the observed destination hashes. -/
theorem announce_snapshot_sorted_unique (evs : List AnnounceEntry) :
    List.Sorted announceMoreRecent
      (announcesJSON (applyAnnounces evs)).announces ∧
    List.Perm (announcesJSON (applyAnnounces evs)).announces
      ((applyAnnounces evs).map Prod.snd) ∧
    ((announcesJSON (applyAnnounces evs)).announces.map
      (·.destinationHashHex)).Nodup ∧
    (∀ k, k ∈ (announcesJSON (applyAnnounces evs)).announces.map
        (·.destinationHashHex) ↔ k ∈ evs.map (·.destinationHashHex)) := by
  have hsort : List.Sorted announceMoreRecent
      (announceSnapshot (applyAnnounces evs)) :=
    List.sorted_insertionSort _ _
  have hperm : (announceSnapshot (applyAnnounces evs)).Perm
      ((applyAnnounces evs).map Prod.snd) :=
    List.perm_insertionSort _ _
  have hkeyeq : ∀ p ∈ applyAnnounces evs, p.2.destinationHashHex = p.1 :=
    applyAnnounces_key_eq evs [] (by simp)
  have hmapeq : ((applyAnnounces evs).map Prod.snd).map
      (·.destinationHashHex) = (applyAnnounces evs).map Prod.fst := by
    rw [List.map_map]
    exact List.map_congr_left hkeyeq
  have hnodup : ((applyAnnounces evs).map Prod.fst).Nodup :=
    applyAnnounces_keys_nodup evs [] (by simp)
  have hperm2 : ((announceSnapshot (applyAnnounces evs)).map
      (·.destinationHashHex)).Perm ((applyAnnounces evs).map Prod.fst) := by
    rw [← hmapeq]
    exact hperm.map _
  refine ⟨hsort, hperm, hperm2.nodup_iff.mpr hnodup, ?_⟩
  intro k
  rw [show (announcesJSON (applyAnnounces evs)).announces =
    announceSnapshot (applyAnnounces evs) from rfl]
  rw [hperm2.mem_iff]
  have hmem := applyAnnounces_keys_mem evs [] k
  simp only [List.map_nil, List.not_mem_nil, false_or] at hmem
  exact hmem

end Runcore
